import Mathlib

/-!
Verification of the slop-mcp bootstrap launcher (src/slop_mcp/__init__.py)
against its natural-language specification.

The launcher is embedded shallowly: the ambient process facts that Python
reads from the environment (platform.system(), platform.machine(), the
package version, the user's home directory, sys.argv[1:]) become explicit
string/list parameters; the filesystem and the network become explicit
state threaded through the functions; Python exceptions become the error
side of `Except String`.  Python's str.lower() and str.startswith are
modelled by `lowerStr` and `strStartsWith` below (ASCII case folding,
which agrees with Python on every string the code compares against).

The spec also describes the orchestrator core inside the downloaded
binary, whose source is not part of this repository; the Capability
Registry portion needed by the claims is modelled from the spec's words
in the `Orchestrator` namespace at the end of the file.
-/

namespace SlopMcp

/-- ASCII case folding of one character, as Python's str.lower() acts on
the ASCII range (the only range the launcher ever compares against). -/
def lowerChar (c : Char) : Char :=
  if 65 ≤ c.toNat ∧ c.toNat ≤ 90 then Char.ofNat (c.toNat + 32) else c

/-- Python str.lower(), modelled characterwise. -/
def lowerStr (s : String) : String := ⟨s.data.map lowerChar⟩

/-- Python str.startswith(p), modelled on the underlying character lists. -/
def strStartsWith (s p : String) : Bool := p.data.isPrefixOf s.data

/-- `REPO` constant from the source. -/
def REPO : String := "standardbeagle/slop-mcp"

/-- `BINARY_NAME` constant from the source. -/
def BINARY_NAME : String := "slop-mcp"

/-- The `goos` half of `get_platform_info`: the first `if/elif` chain of the
source, applied to the already-lowercased `platform.system()` value. -/
def resolve_goos (s : String) : Except String String :=
  if s = "darwin" then .ok "darwin"
  else if s = "linux" then .ok "linux"
  else if s = "windows" then .ok "windows"
  else .error ("Unsupported platform: " ++ s)

/-- The `goarch` half of `get_platform_info`: the second `if/elif` chain of
the source, applied to the already-lowercased `platform.machine()` value. -/
def resolve_goarch (m : String) : Except String String :=
  if m = "x86_64" ∨ m = "amd64" then .ok "amd64"
  else if m = "arm64" ∨ m = "aarch64" then .ok "arm64"
  else .error ("Unsupported architecture: " ++ m)

/-- `get_platform_info` from the source: lowercases `platform.system()` and
`platform.machine()`, resolves `goos` first (raising on an unsupported
system before the machine is examined), then `goarch`. -/
def get_platform_info (system machine : String) : Except String (String × String) :=
  match resolve_goos (lowerStr system) with
  | .error e => .error e
  | .ok goos =>
    match resolve_goarch (lowerStr machine) with
    | .error e => .error e
    | .ok goarch => .ok (goos, goarch)

/-- `get_binary_path` from the source.  The `cache_dir.mkdir` call only
creates directories and touches no file, so it does not appear in the file
map; the function's value is the returned path, or the `RuntimeError`
propagated from `get_platform_info`. -/
def get_binary_path (home system machine version : String) : Except String String :=
  match get_platform_info system machine with
  | .error e => .error e
  | .ok (goos, goarch) =>
    let ext := if goos = "windows" then ".exe" else ""
    .ok (home ++ "/.cache/slop-mcp/" ++ BINARY_NAME ++ "-" ++ version ++ "-" ++ goos
      ++ "-" ++ goarch ++ ext)

/-- The URL-building tail of `get_download_url`, after the platform pair has
been resolved. -/
def download_url_for (version goos goarch : String) : String :=
  let ext := if goos = "windows" then ".exe" else ""
  let v := if strStartsWith version "v" then version else "v" ++ version
  "https://github.com/" ++ REPO ++ "/releases/download/" ++ v ++ "/" ++ BINARY_NAME
    ++ "-" ++ goos ++ "-" ++ goarch ++ ext

/-- `get_download_url` from the source: resolves the platform (propagating
its `RuntimeError`) and builds the release-asset URL. -/
def get_download_url (system machine version : String) : Except String String :=
  match get_platform_info system machine with
  | .error e => .error e
  | .ok (goos, goarch) => .ok (download_url_for version goos goarch)

lemma resolve_goos_ok (s : String) (h : s = "darwin" ∨ s = "linux" ∨ s = "windows") :
    resolve_goos s = .ok s := by
  rcases h with h | h | h <;> subst h <;> rfl

lemma resolve_goos_err (s : String)
    (h : ¬ (s = "darwin" ∨ s = "linux" ∨ s = "windows")) :
    resolve_goos s = .error ("Unsupported platform: " ++ s) := by
  push_neg at h
  obtain ⟨h1, h2, h3⟩ := h
  simp [resolve_goos, h1, h2, h3]

lemma resolve_goarch_ok (m : String)
    (h : m = "x86_64" ∨ m = "amd64" ∨ m = "arm64" ∨ m = "aarch64") :
    resolve_goarch m = .ok (if m = "x86_64" ∨ m = "amd64" then "amd64" else "arm64") := by
  rcases h with h | h | h | h <;> subst h <;> rfl

lemma resolve_goarch_err (m : String)
    (h : ¬ (m = "x86_64" ∨ m = "amd64" ∨ m = "arm64" ∨ m = "aarch64")) :
    resolve_goarch m = .error ("Unsupported architecture: " ++ m) := by
  push_neg at h
  obtain ⟨h1, h2, h3, h4⟩ := h
  simp [resolve_goarch, h1, h2, h3, h4]

/-- Claim C3: for every system whose lowercase form is darwin, linux or
windows paired with a machine whose lowercase form is x86_64, amd64, arm64
or aarch64, `get_platform_info` returns the pair of the lowercased system
name and the normalized architecture; for every other system or machine
value it raises (returns an error and no pair). -/
theorem claim_C3 (system machine : String) :
    (((lowerStr system = "darwin" ∨ lowerStr system = "linux" ∨ lowerStr system = "windows") ∧
      (lowerStr machine = "x86_64" ∨ lowerStr machine = "amd64" ∨
       lowerStr machine = "arm64" ∨ lowerStr machine = "aarch64")) →
      get_platform_info system machine =
        Except.ok (lowerStr system,
          if lowerStr machine = "x86_64" ∨ lowerStr machine = "amd64" then "amd64"
          else "arm64")) ∧
    (¬ ((lowerStr system = "darwin" ∨ lowerStr system = "linux" ∨ lowerStr system = "windows") ∧
        (lowerStr machine = "x86_64" ∨ lowerStr machine = "amd64" ∨
         lowerStr machine = "arm64" ∨ lowerStr machine = "aarch64")) →
      ∃ e, get_platform_info system machine = Except.error e) := by
  constructor
  · rintro ⟨hs, hm⟩
    unfold get_platform_info
    rw [resolve_goos_ok _ hs, resolve_goarch_ok _ hm]
  · intro h
    rw [not_and_or] at h
    rcases h with h | h
    · refine ⟨"Unsupported platform: " ++ lowerStr system, ?_⟩
      unfold get_platform_info
      rw [resolve_goos_err _ h]
    · rcases Decidable.em (lowerStr system = "darwin" ∨ lowerStr system = "linux" ∨
          lowerStr system = "windows") with hs | hs
      · refine ⟨"Unsupported architecture: " ++ lowerStr machine, ?_⟩
        unfold get_platform_info
        rw [resolve_goos_ok _ hs, resolve_goarch_err _ h]
      · refine ⟨"Unsupported platform: " ++ lowerStr system, ?_⟩
        unfold get_platform_info
        rw [resolve_goos_err _ hs]

/-- Witness for C3: both directions at concrete inputs. -/
theorem claim_C3_witness :
    get_platform_info "Darwin" "x86_64" = Except.ok ("darwin", "amd64") ∧
    ∃ e, get_platform_info "Haiku" "mips" = Except.error e :=
  ⟨(claim_C3 "Darwin" "x86_64").1 (by decide),
   (claim_C3 "Haiku" "mips").2 (by decide)⟩

/-- Claim C4: `get_download_url` is a deterministic function of the resolved
platform pair and the version: it returns
`https://github.com/standardbeagle/slop-mcp/releases/download/<tag>/slop-mcp-<goos>-<goarch><ext>`
where `<tag>` prepends a `v` exactly when the version does not already start
with one, and `<ext>` is `.exe` exactly when `goos` is windows. -/
theorem claim_C4 (system machine version goos goarch : String)
    (h : get_platform_info system machine = Except.ok (goos, goarch)) :
    get_download_url system machine version =
      Except.ok ("https://github.com/standardbeagle/slop-mcp/releases/download/"
        ++ (if strStartsWith version "v" then version else "v" ++ version)
        ++ "/slop-mcp-" ++ goos ++ "-" ++ goarch
        ++ (if goos = "windows" then ".exe" else "")) := by
  unfold get_download_url
  rw [h]
  unfold download_url_for
  simp only [REPO, BINARY_NAME]
  congr 1
  simp [String.append_assoc]

/-- Witness for C4: the full URL on a concrete macOS/amd64 resolution with
an unprefixed version. -/
theorem claim_C4_witness :
    get_platform_info "Darwin" "x86_64" = Except.ok ("darwin", "amd64") ∧
    get_download_url "Darwin" "x86_64" "0.0.0" =
      Except.ok
        "https://github.com/standardbeagle/slop-mcp/releases/download/v0.0.0/slop-mcp-darwin-amd64" :=
  ⟨rfl, claim_C4 "Darwin" "x86_64" "0.0.0" "darwin" "amd64" rfl⟩

/-- Claim C5: `get_binary_path` returns
`<home>/.cache/slop-mcp/slop-mcp-<version>-<goos>-<goarch><ext>` with `<ext>`
equal to `.exe` exactly when `goos` is windows; the path is determined
solely by the home directory, the version and the resolved platform pair. -/
theorem claim_C5 (home system machine version goos goarch : String)
    (h : get_platform_info system machine = Except.ok (goos, goarch)) :
    get_binary_path home system machine version =
      Except.ok (home ++ "/.cache/slop-mcp/slop-mcp-" ++ version ++ "-" ++ goos
        ++ "-" ++ goarch ++ (if goos = "windows" then ".exe" else "")) := by
  unfold get_binary_path
  rw [h]
  simp only [BINARY_NAME]
  congr 1
  simp [String.append_assoc]

/-- Witness for C5: the cache path on a concrete Linux/arm64 resolution. -/
theorem claim_C5_witness :
    get_platform_info "Linux" "aarch64" = Except.ok ("linux", "arm64") ∧
    get_binary_path "/home/u" "Linux" "aarch64" "0.0.0" =
      Except.ok "/home/u/.cache/slop-mcp/slop-mcp-0.0.0-linux-arm64" :=
  ⟨rfl, claim_C5 "/home/u" "Linux" "aarch64" "0.0.0" "linux" "arm64" rfl⟩

/-- A regular file: its byte contents and its permission mode bits. -/
structure File where
  content : List Nat
  mode : Nat
deriving DecidableEq

/-- The visible filesystem: a finite map from paths to files, as an
association list (directories are not modelled; the launcher's only
directory operation, `mkdir(parents=True, exist_ok=True)`, touches no
file). -/
abbrev FS := List (String × File)

def fsGet (fs : FS) (p : String) : Option File :=
  match fs with
  | [] => none
  | (q, f) :: rest => if q = p then some f else fsGet rest p

def fsExists (fs : FS) (p : String) : Bool := (fsGet fs p).isSome

def fsSet (fs : FS) (p : String) (f : File) : FS :=
  match fs with
  | [] => [(p, f)]
  | (q, g) :: rest => if q = p then (p, f) :: rest else (q, g) :: fsSet rest p f

/-- `Path.write_bytes`: replaces the contents of an existing file keeping
its mode, or creates the file with the process's creation mode. -/
def fsWrite (fs : FS) (p : String) (c : List Nat) (createMode : Nat) : FS :=
  match fsGet fs p with
  | some f => fsSet fs p { f with content := c }
  | none => fsSet fs p { content := c, mode := createMode }

/-- `dest.chmod(dest.stat().st_mode | S_IXUSR | S_IXGRP | S_IXOTH)`:
73 is 0o111, the three execute bits. -/
def fsChmodAddExec (fs : FS) (p : String) : FS :=
  match fsGet fs p with
  | some f => fsSet fs p { f with mode := f.mode ||| 73 }
  | none => fs

/-- An HTTP response after redirects: status code and body bytes. -/
structure HttpResponse where
  status : Nat
  content : List Nat
deriving DecidableEq

/-- The network: the response each GET of a URL produces. -/
abbrev Net := String → HttpResponse

/-- Process-visible world state: the file map, the log of GET requests the
process has issued, and the mode bits a newly created file receives
(0o666 masked by the process umask, left abstract). -/
structure World where
  fs : FS
  fetches : List String
  createMode : Nat
deriving DecidableEq

/-- `download_binary` from the source: builds the URL (re-resolving the
platform, whose `RuntimeError` propagates), issues the GET (recorded in
the fetch log), raises on a non-success status (`response.raise_for_status`
of httpx, success being the 2xx range) before anything is written, writes
the body to `dest`, and — when `platform.system()` is not the exact string
"Windows" — adds the three execute bits to the file's mode. -/
def download_binary (net : Net) (system machine version dest : String) (w : World) :
    Except String Unit × World :=
  match get_download_url system machine version with
  | .error e => (.error e, w)
  | .ok url =>
    let response := net url
    let w1 : World := { w with fetches := w.fetches ++ [url] }
    if 200 ≤ response.status ∧ response.status < 300 then
      let w2 : World := { w1 with fs := fsWrite w1.fs dest response.content w1.createMode }
      if system ≠ "Windows" then
        (.ok (), { w2 with fs := fsChmodAddExec w2.fs dest })
      else
        (.ok (), w2)
    else
      (.error ("HTTP status error: " ++ toString response.status), w1)

/-- `ensure_binary` from the source: computes the cache path, downloads to
it only when no file exists there, and returns the path. -/
def ensure_binary (net : Net) (system machine version home : String) (w : World) :
    Except String String × World :=
  match get_binary_path home system machine version with
  | .error e => (.error e, w)
  | .ok binary_path =>
    if fsExists w.fs binary_path then (.ok binary_path, w)
    else
      match download_binary net system machine version binary_path w with
      | (.ok _, w1) => (.ok binary_path, w1)
      | (.error e, w1) => (.error e, w1)

/-- Observable outcome of `main`: its return value, what it printed to
stderr, and the subprocess command it ran, if any. -/
structure MainResult where
  exitCode : Int
  stderrLines : List String
  ranCommand : Option (List String)
deriving DecidableEq

/-- `main` from the source: tries `ensure_binary`; on any exception prints
to stderr and returns 1; otherwise runs `[binary_path] + sys.argv[1:]` as a
subprocess (`exec` gives each command's exit code) and returns its
returncode. -/
def main (net : Net) (exec : List String → Int) (system machine version home : String)
    (argvTail : List String) (w : World) : MainResult × World :=
  match ensure_binary net system machine version home w with
  | (.error e, w1) =>
    ({ exitCode := 1, stderrLines := ["Error downloading slop-mcp binary: " ++ e],
       ranCommand := none }, w1)
  | (.ok binary_path, w1) =>
    ({ exitCode := exec (binary_path :: argvTail), stderrLines := [],
       ranCommand := some (binary_path :: argvTail) }, w1)

lemma fsGet_fsSet_self (fs : FS) (p : String) (f : File) :
    fsGet (fsSet fs p f) p = some f := by
  induction fs with
  | nil => simp [fsSet, fsGet]
  | cons hd tl ih =>
    obtain ⟨q, g⟩ := hd
    by_cases hq : q = p
    · simp [fsSet, fsGet, hq]
    · simp [fsSet, fsGet, hq, ih]

lemma fsGet_fsWrite_self (fs : FS) (p : String) (c : List Nat) (cm : Nat) :
    ∃ m, fsGet (fsWrite fs p c cm) p = some ⟨c, m⟩ := by
  unfold fsWrite
  cases hf : fsGet fs p with
  | none => exact ⟨cm, fsGet_fsSet_self fs p ⟨c, cm⟩⟩
  | some f => exact ⟨f.mode, fsGet_fsSet_self fs p { f with content := c }⟩

lemma fsGet_fsChmodAddExec_self (fs : FS) (p : String) :
    fsGet (fsChmodAddExec fs p) p =
      (fsGet fs p).map (fun f => { f with mode := f.mode ||| 73 }) := by
  unfold fsChmodAddExec
  cases hf : fsGet fs p with
  | none => simp [hf]
  | some f => simp [fsGet_fsSet_self]

lemma lor_land_self (m k : Nat) : (m ||| k) &&& k = k := by
  apply Nat.eq_of_testBit_eq
  intro i
  simp [Nat.testBit_and, Nat.testBit_or]
  cases k.testBit i <;> simp

/-- Claim C1: whenever `ensure_binary` succeeds, `main` runs the resolved
binary as a subprocess with exactly the user's arguments, in order,
appended after the binary path, and returns that subprocess's exit code. -/
theorem claim_C1 (net : Net) (exec : List String → Int)
    (system machine version home : String) (argvTail : List String) (w : World)
    (bp : String) (w1 : World)
    (h : ensure_binary net system machine version home w = (Except.ok bp, w1)) :
    main net exec system machine version home argvTail w =
      ({ exitCode := exec (bp :: argvTail), stderrLines := [],
         ranCommand := some (bp :: argvTail) }, w1) := by
  unfold main
  rw [h]

/-- Witness for C1: a cached binary is run with the user's two arguments
and its exit code is returned. -/
theorem claim_C1_witness :
    ensure_binary (fun _ => ⟨200, [7]⟩) "Linux" "amd64" "0.0.0" "/h"
        ⟨[("/h/.cache/slop-mcp/slop-mcp-0.0.0-linux-amd64", ⟨[0], 493⟩)], [], 420⟩ =
      (Except.ok "/h/.cache/slop-mcp/slop-mcp-0.0.0-linux-amd64",
       ⟨[("/h/.cache/slop-mcp/slop-mcp-0.0.0-linux-amd64", ⟨[0], 493⟩)], [], 420⟩) ∧
    main (fun _ => ⟨200, [7]⟩) (fun cmd => Int.ofNat cmd.length) "Linux" "amd64" "0.0.0"
        "/h" ["--a", "--b"]
        ⟨[("/h/.cache/slop-mcp/slop-mcp-0.0.0-linux-amd64", ⟨[0], 493⟩)], [], 420⟩ =
      (⟨3, [], some ["/h/.cache/slop-mcp/slop-mcp-0.0.0-linux-amd64", "--a", "--b"]⟩,
       ⟨[("/h/.cache/slop-mcp/slop-mcp-0.0.0-linux-amd64", ⟨[0], 493⟩)], [], 420⟩) :=
  ⟨rfl,
   claim_C1 (fun _ => ⟨200, [7]⟩) (fun cmd => Int.ofNat cmd.length) "Linux" "amd64"
     "0.0.0" "/h" ["--a", "--b"]
     ⟨[("/h/.cache/slop-mcp/slop-mcp-0.0.0-linux-amd64", ⟨[0], 493⟩)], [], 420⟩
     "/h/.cache/slop-mcp/slop-mcp-0.0.0-linux-amd64"
     ⟨[("/h/.cache/slop-mcp/slop-mcp-0.0.0-linux-amd64", ⟨[0], 493⟩)], [], 420⟩
     rfl⟩

/-- Claim C9: whenever ensuring the binary raises, `main` catches the
exception, prints an error line to stderr, returns exit code 1, and never
runs the binary. -/
theorem claim_C9 (net : Net) (exec : List String → Int)
    (system machine version home : String) (argvTail : List String) (w : World)
    (e : String) (w1 : World)
    (h : ensure_binary net system machine version home w = (Except.error e, w1)) :
    main net exec system machine version home argvTail w =
      ({ exitCode := 1, stderrLines := ["Error downloading slop-mcp binary: " ++ e],
         ranCommand := none }, w1) := by
  unfold main
  rw [h]

/-- Witness for C9: an unsupported platform makes `main` return 1 with an
error line and no subprocess. -/
theorem claim_C9_witness :
    ensure_binary (fun _ => ⟨200, [7]⟩) "Haiku" "mips" "0.0.0" "/h" ⟨[], [], 420⟩ =
      (Except.error "Unsupported platform: haiku", ⟨[], [], 420⟩) ∧
    main (fun _ => ⟨200, [7]⟩) (fun _ => 0) "Haiku" "mips" "0.0.0" "/h" [] ⟨[], [], 420⟩ =
      (⟨1, ["Error downloading slop-mcp binary: Unsupported platform: haiku"], none⟩,
       ⟨[], [], 420⟩) :=
  ⟨rfl,
   claim_C9 (fun _ => ⟨200, [7]⟩) (fun _ => 0) "Haiku" "mips" "0.0.0" "/h" []
     ⟨[], [], 420⟩ "Unsupported platform: haiku" ⟨[], [], 420⟩ rfl⟩

lemma download_binary_fetches (net : Net) (system machine version dest : String)
    (w : World) (url : String)
    (hu : get_download_url system machine version = Except.ok url) :
    (download_binary net system machine version dest w).2.fetches =
      w.fetches ++ [url] := by
  unfold download_binary
  rw [hu]
  dsimp only
  split
  · split <;> rfl
  · rfl

/-- Claim C10: on a 4xx or 5xx HTTP status, `download_binary` raises before
writing: the resulting world differs from the initial one only in the fetch
log, so the destination file is neither created nor modified. -/
theorem claim_C10 (net : Net) (system machine version dest : String) (w : World)
    (url : String) (hu : get_download_url system machine version = Except.ok url)
    (h4 : 400 ≤ (net url).status) (h5 : (net url).status ≤ 599) :
    download_binary net system machine version dest w =
      (Except.error ("HTTP status error: " ++ toString (net url).status),
       { w with fetches := w.fetches ++ [url] }) := by
  unfold download_binary
  rw [hu]
  have hst : ¬ (200 ≤ (net url).status ∧ (net url).status < 300) := by omega
  simp only [hst, if_false]

/-- Witness for C10: a 404 leaves the (empty) file map empty and reports an
error. -/
theorem claim_C10_witness :
    get_download_url "Darwin" "arm64" "1.0" =
      Except.ok
        "https://github.com/standardbeagle/slop-mcp/releases/download/v1.0/slop-mcp-darwin-arm64" ∧
    download_binary (fun _ => ⟨404, [9]⟩) "Darwin" "arm64" "1.0" "/d" ⟨[], [], 420⟩ =
      (Except.error "HTTP status error: 404",
       ⟨[],
        ["https://github.com/standardbeagle/slop-mcp/releases/download/v1.0/slop-mcp-darwin-arm64"],
        420⟩) :=
  ⟨rfl,
   claim_C10 (fun _ => ⟨404, [9]⟩) "Darwin" "arm64" "1.0" "/d" ⟨[], [], 420⟩
     "https://github.com/standardbeagle/slop-mcp/releases/download/v1.0/slop-mcp-darwin-arm64"
     rfl (by decide) (by decide)⟩

/-- Claim C6: when `download_binary` succeeds on a system other than
"Windows", the destination file's mode afterwards includes the execute bits
for user, group and other (73 = 0o111); on Windows the file map is exactly
the result of the write, with no mode change. -/
theorem claim_C6 (net : Net) (system machine version dest : String) (w w1 : World)
    (url : String) (hu : get_download_url system machine version = Except.ok url)
    (h : download_binary net system machine version dest w = (Except.ok (), w1)) :
    (system ≠ "Windows" →
      ∃ f, fsGet w1.fs dest = some f ∧ f.mode &&& 73 = 73) ∧
    (system = "Windows" →
      w1.fs = fsWrite w.fs dest (net url).content w.createMode) := by
  unfold download_binary at h
  rw [hu] at h
  dsimp only at h
  by_cases hst : 200 ≤ (net url).status ∧ (net url).status < 300
  · rw [if_pos hst] at h
    by_cases hw : system = "Windows"
    · rw [if_neg (fun hne => hne hw)] at h
      obtain ⟨-, h2⟩ := Prod.mk.injEq .. ▸ h
      constructor
      · intro hne
        exact absurd hw hne
      · intro _
        rw [← h2]
    · rw [if_pos hw] at h
      obtain ⟨-, h2⟩ := Prod.mk.injEq .. ▸ h
      constructor
      · intro _
        obtain ⟨m, hm⟩ := fsGet_fsWrite_self w.fs dest (net url).content w.createMode
        refine ⟨⟨(net url).content, m ||| 73⟩, ?_, lor_land_self m 73⟩
        rw [← h2]
        dsimp only
        rw [fsGet_fsChmodAddExec_self, hm]
        rfl
      · intro hw2
        exact absurd hw2 hw
  · rw [if_neg hst] at h
    exact absurd (congrArg Prod.fst h) (by simp)

/-- Witness for C6: a successful download on Linux leaves the file
executable; the 0o644 creation mode becomes 0o755 (493). -/
theorem claim_C6_witness :
    get_download_url "Linux" "amd64" "0.0.0" =
      Except.ok
        "https://github.com/standardbeagle/slop-mcp/releases/download/v0.0.0/slop-mcp-linux-amd64" ∧
    (("Linux" : String) ≠ "Windows" →
      ∃ f,
        fsGet
          (download_binary (fun _ => ⟨200, [1]⟩) "Linux" "amd64" "0.0.0" "/d"
            ⟨[], [], 420⟩).2.fs "/d" = some f ∧ f.mode &&& 73 = 73) :=
  ⟨rfl,
   (claim_C6 (fun _ => ⟨200, [1]⟩) "Linux" "amd64" "0.0.0" "/d" ⟨[], [], 420⟩
     (download_binary (fun _ => ⟨200, [1]⟩) "Linux" "amd64" "0.0.0" "/d" ⟨[], [], 420⟩).2
     "https://github.com/standardbeagle/slop-mcp/releases/download/v0.0.0/slop-mcp-linux-amd64"
     rfl rfl).1⟩

/-- Claim C2: `ensure_binary` returns the path computed by
`get_binary_path`; it performs a network fetch exactly when no file exists
at that path, and when the file already exists the whole world (in
particular the file's contents) is left unchanged and no fetch occurs. -/
theorem claim_C2 (net : Net) (system machine version home : String) (w : World)
    (bp : String) (h : get_binary_path home system machine version = Except.ok bp) :
    (fsExists w.fs bp = true →
      ensure_binary net system machine version home w = (Except.ok bp, w)) ∧
    (fsExists w.fs bp = false →
      ∃ url, get_download_url system machine version = Except.ok url ∧
        (ensure_binary net system machine version home w).2.fetches =
          w.fetches ++ [url]) ∧
    (∀ r w1, ensure_binary net system machine version home w = (Except.ok r, w1) →
      r = bp) := by
  cases hg : get_platform_info system machine with
  | error e =>
    rw [get_binary_path, hg] at h
    cases h
  | ok pair =>
    obtain ⟨goos, goarch⟩ := pair
    have hu : get_download_url system machine version =
        Except.ok (download_url_for version goos goarch) := by
      rw [get_download_url, hg]
    refine ⟨?_, ?_, ?_⟩
    · intro hex
      rw [ensure_binary, h]
      dsimp only
      rw [if_pos hex]
    · intro hex
      refine ⟨download_url_for version goos goarch, hu, ?_⟩
      have hfetch := download_binary_fetches net system machine version bp w _ hu
      rw [ensure_binary, h]
      dsimp only
      rw [if_neg (by simp [hex])]
      rcases hd : download_binary net system machine version bp w with ⟨res, w1⟩
      rw [hd] at hfetch
      cases res <;> simpa using hfetch
    · intro r w1 hr
      rw [ensure_binary, h] at hr
      dsimp only at hr
      by_cases hex : fsExists w.fs bp = true
      · rw [if_pos hex] at hr
        exact (Except.ok.inj ((Prod.mk.injEq _ _ _ _).mp hr).1).symm
      · rw [if_neg hex] at hr
        rcases hd : download_binary net system machine version bp w with ⟨res, w2⟩
        rw [hd] at hr
        cases res with
        | ok u =>
          have := ((Prod.mk.injEq _ _ _ _).mp hr).1
          exact (Except.ok.inj this).symm
        | error e =>
          exact absurd ((Prod.mk.injEq _ _ _ _).mp hr).1 (by simp)

/-- Witness for C2: with an empty cache, ensuring the binary fetches the
release URL exactly once. -/
theorem claim_C2_witness :
    get_binary_path "/h" "Darwin" "arm64" "0.0.0" =
      Except.ok "/h/.cache/slop-mcp/slop-mcp-0.0.0-darwin-arm64" ∧
    ∃ url, get_download_url "Darwin" "arm64" "0.0.0" = Except.ok url ∧
      (ensure_binary (fun _ => ⟨200, [5]⟩) "Darwin" "arm64" "0.0.0" "/h"
          ⟨[], [], 420⟩).2.fetches = [] ++ [url] :=
  ⟨rfl,
   (claim_C2 (fun _ => ⟨200, [5]⟩) "Darwin" "arm64" "0.0.0" "/h" ⟨[], [], 420⟩
     "/h/.cache/slop-mcp/slop-mcp-0.0.0-darwin-arm64" rfl).2.1 rfl⟩

end SlopMcp

namespace Orchestrator

/-- Modelled from the spec: a Capability Entry of the orchestrator core
(which lives in the downloaded binary and is not part of the visible
source): "a (name, kind, owning Upstream identity, schema) tuple", unique
by (kind, name) in the merged registry.  Upstream identities are numbers;
the schema plays no role in the claims and is omitted. -/
structure CapEntry where
  kind : String
  name : String
  owner : Nat
deriving DecidableEq

/-- Modelled from the spec: the Registry Snapshot, "an immutable merged
view of all Capability Entries". -/
structure RegistrySnapshot where
  entries : List CapEntry
deriving DecidableEq

/-- Modelled from the spec: adding one advertised capability under the
"first-registered wins" collision policy: an entry whose (kind, name) is
already present is skipped, otherwise it is appended. -/
def registerEntry (snap : RegistrySnapshot) (e : CapEntry) : RegistrySnapshot :=
  if (snap.entries.find? (fun x => x.kind = e.kind ∧ x.name = e.name)).isSome then snap
  else ⟨snap.entries ++ [e]⟩

/-- Modelled from the spec: `register(upstream_id, catalog)` "merges a
catalog into the snapshot using the documented collision policy"
(first-registered wins); a catalog is a list of (kind, name) pairs. -/
def register (snap : RegistrySnapshot) (upstream : Nat)
    (catalog : List (String × String)) : RegistrySnapshot :=
  catalog.foldl (fun s c => registerEntry s ⟨c.1, c.2, upstream⟩) snap

/-- Modelled from the spec: `lookup(kind, name) -> upstream_id` "resolves a
name to its owner or fails with UnknownCapability". -/
def lookup (snap : RegistrySnapshot) (kind name : String) : Except String Nat :=
  match snap.entries.find? (fun e => e.kind = kind ∧ e.name = name) with
  | some e => .ok e.owner
  | none => .error "UnknownCapability"

lemma lookup_registerEntry (snap : RegistrySnapshot) (e : CapEntry) (kind name : String)
    (a : Nat) (h : lookup snap kind name = .ok a) :
    lookup (registerEntry snap e) kind name = .ok a := by
  unfold registerEntry
  split
  · exact h
  · unfold lookup at h ⊢
    cases hf : snap.entries.find? (fun x => x.kind = kind ∧ x.name = name) with
    | none => rw [hf] at h; cases h
    | some x =>
      rw [hf] at h
      have hfind : (snap.entries ++ [e]).find? (fun x => x.kind = kind ∧ x.name = name) =
          some x := by
        rw [List.find?_append, hf]
        rfl
      rw [hfind]
      exact h

lemma lookup_register_of_ok (snap : RegistrySnapshot) (u : Nat)
    (catalog : List (String × String)) (kind name : String) (a : Nat)
    (h : lookup snap kind name = .ok a) :
    lookup (register snap u catalog) kind name = .ok a := by
  induction catalog generalizing snap with
  | nil => exact h
  | cons c cs ih => exact ih _ (lookup_registerEntry _ _ _ _ _ h)

lemma lookup_registerEntry_self (snap : RegistrySnapshot) (kind name : String) (u : Nat) :
    ∃ a, lookup (registerEntry snap ⟨kind, name, u⟩) kind name = .ok a := by
  unfold registerEntry
  cases hf : snap.entries.find? (fun x => x.kind = kind ∧ x.name = name) with
  | some x =>
    refine ⟨x.owner, ?_⟩
    rw [if_pos (by rfl)]
    unfold lookup
    rw [hf]
  | none =>
    refine ⟨u, ?_⟩
    rw [if_neg (by simp)]
    unfold lookup
    have hfind : ((snap.entries ++ [(⟨kind, name, u⟩ : CapEntry)]).find?
        (fun x => x.kind = kind ∧ x.name = name)) = some ⟨kind, name, u⟩ := by
      rw [List.find?_append, hf]
      simp
    rw [hfind]

lemma lookup_register_isOk (snap : RegistrySnapshot) (u : Nat)
    (catalog : List (String × String)) (kind name : String)
    (h : (kind, name) ∈ catalog) :
    ∃ a, lookup (register snap u catalog) kind name = .ok a := by
  induction catalog generalizing snap with
  | nil => cases h
  | cons c cs ih =>
    rcases List.mem_cons.mp h with h | h
    · obtain ⟨hk, hn⟩ : kind = c.1 ∧ name = c.2 := by
        rw [Prod.ext_iff] at h
        exact h
      subst hk
      subst hn
      obtain ⟨a, ha⟩ := lookup_registerEntry_self snap c.1 c.2 u
      exact ⟨a, lookup_register_of_ok (registerEntry snap ⟨c.1, c.2, u⟩) u cs c.1 c.2 a ha⟩
    · exact ih (registerEntry snap ⟨c.1, c.2, u⟩) h

lemma register_owner_mem (snap : RegistrySnapshot) (u : Nat)
    (catalog : List (String × String)) (e : CapEntry)
    (h : e ∈ (register snap u catalog).entries) :
    e ∈ snap.entries ∨ e.owner = u := by
  induction catalog generalizing snap with
  | nil => exact Or.inl h
  | cons c cs ih =>
    rcases ih (registerEntry snap ⟨c.1, c.2, u⟩) h with h2 | h2
    · unfold registerEntry at h2
      split at h2
      · exact Or.inl h2
      · rcases List.mem_append.mp h2 with h3 | h3
        · exact Or.inl h3
        · right
          rw [List.mem_singleton] at h3
          subst h3
          rfl
    · exact Or.inr h2

/-- Claim C7: under the first-registered-wins collision policy, when
upstreams A and B both advertise a capability named "search" and A's
catalog is registered before B's, looking up "search" resolves to A. -/
theorem claim_C7 (A B : Nat) (catA catB : List (String × String)) (kind : String)
    (hA : (kind, "search") ∈ catA) (hB : (kind, "search") ∈ catB) :
    lookup (register (register ⟨[]⟩ A catA) B catB) kind "search" = .ok A := by
  obtain ⟨a, ha⟩ := lookup_register_isOk ⟨[]⟩ A catA kind "search" hA
  have haA : a = A := by
    unfold lookup at ha
    cases hf : (register ⟨[]⟩ A catA).entries.find?
        (fun e => e.kind = kind ∧ e.name = "search") with
    | none => rw [hf] at ha; cases ha
    | some x =>
      rw [hf] at ha
      have hx : x ∈ (register ⟨[]⟩ A catA).entries := List.mem_of_find?_eq_some hf
      rcases register_owner_mem ⟨[]⟩ A catA x hx with hmem | hown
      · cases hmem
      · rw [← Except.ok.inj ha]
        exact hown
  subst haA
  exact lookup_register_of_ok _ _ _ _ _ _ ha

/-- Witness for C7: with two singleton catalogs both advertising
("tool", "search"), registering upstream 0 then upstream 1 makes the
lookup resolve to 0. -/
theorem claim_C7_witness :
    ((("tool", "search") ∈ [(("tool" : String), ("search" : String))]) ∧
     (("tool", "search") ∈ [(("tool" : String), ("search" : String)), ("tool", "fetch")])) ∧
    lookup (register (register ⟨[]⟩ 0 [("tool", "search")]) 1
      [("tool", "search"), ("tool", "fetch")]) "tool" "search" = .ok 0 :=
  ⟨⟨by simp, by simp⟩,
   claim_C7 0 1 [("tool", "search")] [("tool", "search"), ("tool", "fetch")] "tool"
     (by simp) (by simp)⟩

/-- Modelled from the spec: a Pending Request of the orchestrator core
(not in the visible source): it "correlates a client-issued request ID to
the internal request ID sent to the chosen upstream"; the timeout
timestamp plays no role in the claims and is omitted. -/
structure PendingRequest where
  clientId : Nat
  internalId : Nat
  upstream : Nat
deriving DecidableEq

/-- Modelled from the spec: the orchestrator state visible to the claims —
the current Registry Snapshot, the Pending Request table, and the internal
request-id counter. -/
structure OrchState where
  snap : RegistrySnapshot
  pending : List PendingRequest
  nextInternalId : Nat
deriving DecidableEq

/-- Modelled from the spec: the operations that change the orchestrator
state — a catalog change (`register`), a routed dispatch creating a
Pending Request for the owning upstream, and the removal of a Pending
Request "on response, error, or timeout". -/
inductive Op where
  | registerCatalog (u : Nat) (catalog : List (String × String))
  | dispatch (clientId : Nat) (kind name : String)
  | resolve (clientId : Nat)

/-- Modelled from the spec: one state transition.  A catalog change only
replaces the snapshot with the newly built `register` result; a dispatch
with a fresh client id resolves the capability through the registry and
records the Pending Request against the owning upstream (an unknown
capability or duplicate client id changes nothing); a resolution removes
the client's Pending Request. -/
def applyOp (σ : OrchState) : Op → OrchState
  | .registerCatalog u catalog => { σ with snap := register σ.snap u catalog }
  | .dispatch cid kind name =>
    if (σ.pending.find? (fun p => p.clientId = cid)).isSome then σ
    else
      match lookup σ.snap kind name with
      | .ok u =>
        { σ with pending := σ.pending ++ [⟨cid, σ.nextInternalId, u⟩],
                 nextInternalId := σ.nextInternalId + 1 }
      | .error _ => σ
  | .resolve cid => { σ with pending := σ.pending.filter (fun p => p.clientId ≠ cid) }

/-- The initial orchestrator state: empty snapshot, no pending requests. -/
def initState : OrchState := ⟨⟨[]⟩, [], 0⟩

/-- States reachable from `initState` by any sequence of operations. -/
inductive Reachable : OrchState → Prop
  | init : Reachable initState
  | step {σ : OrchState} (op : Op) : Reachable σ → Reachable (applyOp σ op)

/-- Two capability entries with distinct (kind, name) keys: when a
snapshot's entries are pairwise key-distinct, every capability key is
owned by exactly one upstream. -/
def keyDistinct (a b : CapEntry) : Prop := ¬ (a.kind = b.kind ∧ a.name = b.name)

lemma registerEntry_pairwise (snap : RegistrySnapshot) (e : CapEntry)
    (h : snap.entries.Pairwise keyDistinct) :
    (registerEntry snap e).entries.Pairwise keyDistinct := by
  unfold registerEntry
  split
  · exact h
  · rename_i hf
    have hf' : snap.entries.find? (fun x => x.kind = e.kind ∧ x.name = e.name) = none := by
      simpa using hf
    rw [List.pairwise_append]
    refine ⟨h, List.pairwise_singleton _ _, ?_⟩
    intro a ha b hb
    rw [List.mem_singleton] at hb
    subst hb
    have := List.find?_eq_none.mp hf' a ha
    simpa [keyDistinct] using this

lemma register_pairwise (snap : RegistrySnapshot) (u : Nat)
    (catalog : List (String × String)) (h : snap.entries.Pairwise keyDistinct) :
    (register snap u catalog).entries.Pairwise keyDistinct := by
  induction catalog generalizing snap with
  | nil => exact h
  | cons c cs ih => exact ih _ (registerEntry_pairwise _ _ h)

lemma pending_pairwise_append (l : List PendingRequest) (p : PendingRequest)
    (h : l.Pairwise (fun a b => a.clientId ≠ b.clientId))
    (hnone : l.find? (fun q => q.clientId = p.clientId) = none) :
    (l ++ [p]).Pairwise (fun a b => a.clientId ≠ b.clientId) := by
  rw [List.pairwise_append]
  refine ⟨h, List.pairwise_singleton _ _, ?_⟩
  intro a ha b hb
  rw [List.mem_singleton] at hb
  subst hb
  have := List.find?_eq_none.mp hnone a ha
  simpa using this

/-- Claim C8: in every reachable orchestrator state, the snapshot's
capability entries are pairwise key-distinct (so every capability maps to
exactly one upstream) and the pending requests carry pairwise-distinct
client ids (so every pending request maps to exactly one upstream); and a
catalog change never mutates the snapshot in place — its whole effect is
to replace the snapshot with the newly built `register` of the old one,
which itself remains an unchanged value. -/
theorem claim_C8 (σ : OrchState) (h : Reachable σ) :
    σ.snap.entries.Pairwise keyDistinct ∧
    σ.pending.Pairwise (fun a b => a.clientId ≠ b.clientId) ∧
    (∀ u catalog, (applyOp σ (Op.registerCatalog u catalog)).snap =
      register σ.snap u catalog) := by
  induction h with
  | init => exact ⟨List.Pairwise.nil, List.Pairwise.nil, fun _ _ => rfl⟩
  | step op hσ ih =>
    obtain ⟨ih1, ih2, -⟩ := ih
    refine ⟨?_, ?_, fun _ _ => rfl⟩
    · cases op with
      | registerCatalog u catalog => exact register_pairwise _ _ _ ih1
      | dispatch cid kind name =>
        dsimp only [applyOp]
        split
        · exact ih1
        · split <;> exact ih1
      | resolve cid => exact ih1
    · cases op with
      | registerCatalog u catalog => exact ih2
      | dispatch cid kind name =>
        dsimp only [applyOp]
        split
        · exact ih2
        · rename_i hguard
          split
          · apply pending_pairwise_append _ _ ih2
            simpa using hguard
          · exact ih2
      | resolve cid =>
        dsimp only [applyOp]
        exact List.Pairwise.filter _ ih2

/-- Witness for C8: the invariants hold in the reachable state after one
catalog registration. -/
theorem claim_C8_witness :
    Reachable (applyOp initState (Op.registerCatalog 0 [("tool", "search")])) ∧
    (applyOp initState
      (Op.registerCatalog 0 [("tool", "search")])).snap.entries.Pairwise keyDistinct ∧
    (applyOp initState
      (Op.registerCatalog 0 [("tool", "search")])).pending.Pairwise
        (fun a b => a.clientId ≠ b.clientId) :=
  ⟨Reachable.step _ Reachable.init,
   (claim_C8 _ (Reachable.step _ Reachable.init)).1,
   (claim_C8 _ (Reachable.step _ Reachable.init)).2.1⟩

end Orchestrator
